import Mathlib

/-!
Shallow embedding of the DIFF-CPP diff library.

Verification development for the DIFF-CPP repository
(`src/include/*.h`, `src/test.cpp`).  Byte buffers are modelled as
`List Char` (the `Buffer` class of `buffer.h` wraps a `char*` plus a
size; the ownership flag `_allocated` does not influence the byte
content, so it is not part of the content model).  Texts (`Ascii`)
contain exactly one `Buffer` and treat characters = bytes
(`ascii.h:232-238`), so texts are modelled by the same type.

Machine integers (`size_t`, `ssize_t`, `clock_t`) are modelled as
`Nat` (with `Option Nat` for the `-1` not-found convention of
`find`), and the `float` fields of `Limits` as `ℚ`.  Stateful code
(`Patch::_diffs` and the iterator loops of the optimizer) is modelled
by explicit state passing; loops whose C++ form can fail to terminate
or that perform an operation with no defined meaning (an invalid
`std::list::erase` range, advancing the `end()` iterator) are modelled
with a fuel parameter and an `Option` result, where `none` means "the
C++ execution never produces a result at this point" (either it does
not terminate, or it performs an operation whose behaviour is
undefined).
-/

set_option maxRecDepth 4000

/-- Byte buffer contents (`buffer.h`): the bytes of `_data[0.._size)`. -/
abbrev Buffer := List Char

/-- Source `operation.h`: the closed enumeration `Operation`. -/
inductive Operation where
  | INSERT
  | DELETE
  | EQUAL
deriving DecidableEq, Repr

/-- Source `diff.h`: a `Diff` is a `Buffer` (it derives from it) plus an
`Operation` tag.  `data` is the inherited byte content. -/
structure Diff where
  operation : Operation
  data : Buffer
deriving DecidableEq, Repr

namespace Buffer

/-- Source `buffer.h:432-439`, `Buffer::part(size_t start)`: empty when
`start >= _size`, otherwise the bytes from `start` to the end. -/
def part (b : Buffer) (start : Nat) : Buffer :=
  if b.length ≤ start then [] else b.drop start

/-- Source `buffer.h:446-453`, `Buffer::part(size_t start, size_t size)`:
empty when `start >= _size` or `size == 0`, otherwise
`min(_size - start, size)` bytes beginning at `start`. -/
def part2 (b : Buffer) (start size : Nat) : Buffer :=
  if b.length ≤ start ∨ size = 0 then []
  else (b.drop start).take (min (b.length - start) size)

/-- Source `buffer.h:390-400`, `Buffer::find`: offset of the first occurrence
of `needle` in `hay` (`memmem`), `none` for the `-1` result.  An empty
needle is found at offset 0, as `memmem` returns the haystack start. -/
def find (hay needle : Buffer) : Option Nat :=
  (List.range (hay.length + 1)).find? (fun i => needle.isPrefixOf (hay.drop i))

end Buffer

/-- Source `commonprefix.h:47-69`: the number of leading elements the two
inputs share, bounded by the shorter length (the iterator walk stops
at the first mismatch). -/
def commonPrefixLen : Buffer → Buffer → Nat
  | a :: as, b :: bs => if a = b then commonPrefixLen as bs + 1 else 0
  | _, _ => 0

/-- Source `commonsuffix.h:47-69`: the same walk done from the back through
reverse iterators. -/
def commonSuffixLen (x y : Buffer) : Nat :=
  commonPrefixLen x.reverse y.reverse

/-!
CommonOverlap (`commonoverlap.h`).

The constructor (lines 58-62) binds `_shorttext` to `text2` when
`text1.characters() > text2.characters()` and to `text1` otherwise
(so on a tie, `text1` is the short one), `_longtext` to the other
text, sets `_skip = _longtext.find(_shorttext)` and remembers whether
`text1` was the long one.  `prefix()` is `_longtext.buffer(0, _skip)`;
`suffix()` is `_longtext.buffer(_skip)` — the slice starting at the
hit offset itself, not at `_skip + _shorttext.characters()`.
-/

/-- Method `Patch::overlap` (`patch.h:222-252`): emit the three diffs when the
shorter text occurs in the longer one; otherwise fall back to plain
`DELETE`/`INSERT` when either text is a single character; otherwise
report no match (`none`). -/
def overlapStep (t1 t2 : Buffer) : Option (List Diff) :=
  let shorttext := if t1.length > t2.length then t2 else t1
  let longtext := if t1.length > t2.length then t1 else t2
  let text1long := t1.length > t2.length
  match Buffer.find longtext shorttext with
  | some skip =>
      let op := if text1long then Operation.DELETE else Operation.INSERT
      -- patch.h:231-233: emplace op(prefix), EQUAL(middle), op(suffix);
      -- suffix() is buffer(_skip) (commonoverlap.h:86)
      some [⟨op, Buffer.part2 longtext 0 skip⟩,
            ⟨Operation.EQUAL, shorttext⟩,
            ⟨op, Buffer.part longtext skip⟩]
  | none =>
      if t1.length = 1 ∨ t2.length = 1 then
        some [⟨Operation.DELETE, t1⟩, ⟨Operation.INSERT, t2⟩]
      else none

/-!
CommonHalf (`commonhalf.h`).

State of a `CommonHalf` object.  The fields `pre` and `suf` stand for
the C++ members `_prefix` and `_suffix` (those identifiers are not
usable in Lean).  Note that the constructor (lines 70-94) computes
prefix/suffix lengths into *local* `CommonPrefix`/`CommonSuffix`
objects and never assigns the members `_prefix`/`_suffix`, which
therefore keep their initial value 0; only `_substr` is updated in the
loop.
-/
structure CommonHalfState where
  longtext : Buffer
  shorttext : Buffer
  start : Nat
  substr : Nat
  pre : Nat
  suf : Nat
deriving DecidableEq, Repr

namespace CommonHalfState

/-- Source `commonhalf.h:111`: `characters() = _prefix + _suffix`. -/
def characters (st : CommonHalfState) : Nat := st.pre + st.suf

/-- Source `commonhalf.h:105`: `valid() = characters() * 2 >= _longtext.characters()`. -/
def valid (st : CommonHalfState) : Bool :=
  decide (st.characters * 2 ≥ st.longtext.length)

/-- Source `commonhalf.h:124`: `_longtext.substr(0, _start - _suffix)`. -/
def longPre (st : CommonHalfState) : Buffer :=
  Buffer.part2 st.longtext 0 (st.start - st.suf)

/-- Source `commonhalf.h:125`: `_longtext.substr(_start + _prefix)`. -/
def longSuf (st : CommonHalfState) : Buffer :=
  Buffer.part st.longtext (st.start + st.pre)

/-- Source `commonhalf.h:126`: `_shorttext.substr(0, _substr - _suffix)`. -/
def shortPre (st : CommonHalfState) : Buffer :=
  Buffer.part2 st.shorttext 0 (st.substr - st.suf)

/-- Source `commonhalf.h:127`: `_shorttext.substr(_substr + _prefix)`. -/
def shortSuf (st : CommonHalfState) : Buffer :=
  Buffer.part st.shorttext (st.substr + st.pre)

/-- Source `commonhalf.h:133`: `_shorttext.substr(_substr - _suffix, _suffix + _prefix)`. -/
def common (st : CommonHalfState) : Buffer :=
  Buffer.part2 st.shorttext (st.substr - st.suf) (st.suf + st.pre)

end CommonHalfState

/-- The successive hit offsets produced by the constructor's loop
`while ((pos = shorttext.find(seed, pos + 1)) >= 0)`
(`commonhalf.h:82`): for a non-empty seed these are exactly the
occurrence offsets of `seed` in `shorttext`, in increasing order. -/
def scanPositions (shorttext seed : Buffer) : List Nat :=
  (List.range (shorttext.length + 1)).filter
    (fun i => seed.isPrefixOf (shorttext.drop i))

/-- Constructor `CommonHalf::CommonHalf` (`commonhalf.h:70-94`): seed is the
quarter-length substring of the long text at `index`; for each hit the
loop computes `CommonPrefix(longtext.substr(index), shorttext.substr(pos))`
and `CommonSuffix(longtext.substr(0, index), shorttext.substr(0, pos))`
into local objects, skips the hit when `characters()` (the still-zero
members) already beats their sum, and otherwise records only
`_substr = pos`.  `_prefix`/`_suffix` are never written. -/
def commonHalf (longtext shorttext : Buffer) (index : Nat) : CommonHalfState :=
  let seed := Buffer.part2 longtext index (longtext.length / 4)
  (scanPositions shorttext seed).foldl
    (fun st pos =>
      let p := commonPrefixLen (Buffer.part longtext index) (Buffer.part shorttext pos)
      let s := commonSuffixLen (Buffer.part2 longtext 0 index) (Buffer.part2 shorttext 0 pos)
      if st.pre + st.suf > p + s then st else { st with substr := pos })
    { longtext := longtext, shorttext := shorttext, start := index,
      substr := 0, pre := 0, suf := 0 }

/-- Which of the two `CommonHalf` members of a `HalfMatch` was chosen
as `_winner`. -/
inductive HalfMatchChoice where
  | q2
  | q3
deriving DecidableEq, Repr

/-- Constructor `HalfMatch::HalfMatch` (`halfmatch.h:58-68`): when both quarters
are valid, `_winner = _q2.characters() > _q3.characters() ? &_q2 : &_q3`;
otherwise whichever single one is valid; otherwise null (`none`). -/
def chooseWinner (q2 q3 : CommonHalfState) : Option HalfMatchChoice :=
  if q2.valid && q3.valid then
    some (if q2.characters > q3.characters then HalfMatchChoice.q2 else HalfMatchChoice.q3)
  else if q2.valid then some HalfMatchChoice.q2
  else if q3.valid then some HalfMatchChoice.q3
  else none

/-!
Limits and Deadline (`limits.h`, `deadline.h`).

`clock()` is modelled as a parameter `now : Nat`; `clock_t` is a
64-bit signed integer whose maximum is `2^63 - 1`.
-/

/-- Source `limits.h`: the configuration bag.  The two `float` fields are
modelled as `ℚ`. -/
structure Limits where
  timeout : ℚ := 1
  editcost : Int := 4
  matchThreshold : ℚ := 1 / 2
  matchDistance : Int := 1000
  deleteThreshold : ℚ := 1 / 2
  patchMargin : Int := 4
  matchMaxBits : Int := 32

/-- Constant `CLOCKS_PER_SEC` on the target platform (glibc): 1000000. -/
def CLOCKS_PER_SEC : Nat := 1000000

/-- Value of `std::numeric_limits<clock_t>::max()` for a 64-bit `clock_t`. -/
def clockMax : Nat := 2 ^ 63 - 1

/-- Method `Limits::deadline` (`limits.h:78-85`): the maximal `clock_t` when
`timeout <= 0`, otherwise `clock() + (clock_t)(timeout * CLOCKS_PER_SEC)`. -/
def Limits.deadline (l : Limits) (now : Nat) : Nat :=
  if l.timeout ≤ 0 then clockMax
  else now + (l.timeout * CLOCKS_PER_SEC).floor.toNat

/-- Source `deadline.h`: a `Deadline` stores the construction time and the
`_max` seconds value (`0` meaning infinity). -/
structure Deadline where
  start : Nat
  max : Nat

/-- Source `deadline.h:60`: `operator bool` — the deadline "is set" iff
`_max > 0`. -/
def Deadline.isSet (d : Deadline) : Bool := decide (0 < d.max)

/-- The `Deadline` the public `Patch` constructor builds
(`patch.h:103-104`): the `clock_t` result of `limits.deadline()` is
passed to the `Deadline(time_t seconds)` constructor
(`deadline.h:49`), i.e. the clock value becomes the `_max` seconds
field. -/
def Patch.deadlineOf (l : Limits) (now : Nat) : Deadline :=
  ⟨now, l.deadline now⟩

/-!
The Patch pipeline (`patch.h`).

`Patch::halfmatch`, `Patch::compute` and the private constructor are
mutually recursive in the C++ (the half-match path builds sub-`Patch`
objects).  Here `compute`/`halfmatchStep` take the recursive
constructor as an explicit function argument `recurse`, and the
top-level `patchGo` ties the knot with a fuel parameter.
-/

/-- Method `Patch::halfmatch` (`patch.h:150-191`).  Result:
`some none` = the C++ function returns `false` (guard failed or no
valid half match), `some (some ds)` = it returns `true` having spliced
the diffs `ds`, `none` = a sub-`Patch` construction never finishes. -/
def halfmatchStep (recurse : Buffer → Buffer → Option (List Diff))
    (t1 t2 : Buffer) : Option (Option (List Diff)) :=
  -- patch.h:153-154: on a length tie, longtext binds text2
  let longtext := if t1.length > t2.length then t1 else t2
  let shorttext := if t1.length > t2.length then t2 else t1
  -- patch.h:157
  if longtext.length < 4 ∨ shorttext.length * 2 < longtext.length then some none
  else
    -- halfmatch.h:59-60: the 2nd-quarter and 3rd-quarter CommonHalf
    let q2 := commonHalf longtext shorttext ((longtext.length + 3) / 4)
    let q3 := commonHalf longtext shorttext ((longtext.length + 1) / 2)
    match chooseWinner q2 q3 with
    | none => some none
    | some c =>
      let w := match c with
        | HalfMatchChoice.q2 => q2
        | HalfMatchChoice.q3 => q3
      -- patch.h:166-187: recurse on the two sides, EQUAL(common) in between
      if t1.length > t2.length then
        match recurse w.longPre w.shortPre, recurse w.longSuf w.shortSuf with
        | some p1, some p2 =>
            some (some (p1 ++ [⟨Operation.EQUAL, w.common⟩] ++ p2))
        | _, _ => none
      else
        match recurse w.shortPre w.longPre, recurse w.shortSuf w.longSuf with
        | some p1, some p2 =>
            some (some (p1 ++ [⟨Operation.EQUAL, w.common⟩] ++ p2))
        | _, _ => none

/-- Method `Patch::compute` (`patch.h:122-139`).  The `linemode` and `bisect`
methods called on the last two lines have empty bodies in the source
(`patch.h:200-214`, both marked `@todo`), so those branches add no
diffs. -/
def compute (recurse : Buffer → Buffer → Option (List Diff))
    (dl cl : Bool) (t1 t2 : Buffer) : Option (List Diff) :=
  if t1.length = 0 then some [⟨Operation.INSERT, t2⟩]
  else if t2.length = 0 then some [⟨Operation.DELETE, t1⟩]
  else
    match overlapStep t1 t2 with
    | some ds => some ds
    | none =>
      -- patch.h:132: `if (deadline && halfmatch(...)) return;`
      match (if dl then halfmatchStep recurse t1 t2 else some none) with
      | none => none
      | some (some ds) => some ds
      | some none =>
        if cl && decide (t1.length > 100) && decide (t2.length > 100)
        then some []   -- linemode: unimplemented stub, leaves _diffs alone
        else some []   -- bisect: unimplemented stub, leaves _diffs alone

/-- The `_diffs` contents the private constructor (`patch.h:56-88`) has
assembled just before it calls `optimize()`, for the non-equal branch:
EQUAL(common prefix), then the `compute` result on
`substr(prefix, common)` of both inputs — the source passes
`common = prefix + suffix` as the *size* argument (`patch.h:80`) —
then EQUAL(common suffix). -/
def patchAssemble (recurse : Buffer → Buffer → Option (List Diff))
    (dl cl : Bool) (input1 input2 : Buffer) : Option (List Diff) :=
  let pfx := commonPrefixLen input1 input2
  let sfx := commonSuffixLen (Buffer.part input1 pfx) (Buffer.part input2 pfx)
  let head := if 0 < pfx then [⟨Operation.EQUAL, Buffer.part2 input1 0 pfx⟩] else []
  let common := pfx + sfx
  match compute recurse dl cl (Buffer.part2 input1 pfx common)
        (Buffer.part2 input2 pfx common) with
  | none => none
  | some mid =>
    let trimmed := Buffer.part input1 pfx
    let tail :=
      if 0 < sfx
      then [⟨Operation.EQUAL, Buffer.part2 trimmed (trimmed.length - sfx) sfx⟩]
      else []
    some (head ++ mid ++ tail)

/-!
The optimizer (`patch.h:258-473`).
-/

/-- The scan of `Patch::mergeUpdates` (`patch.h:276-354`), one list
element per step.  `updates` is whether the iterator `updates` has
been set (line 289: it is set at the first non-EQUAL element and never
reset on any reachable path); `mi`/`md` are the `mergedInsert` /
`mergedDelete` byte accumulators.  In the EQUAL case the guard at line
305 reads `if (updates != _diffs.end()) break;`: with a pending run it
breaks out of the switch, leaving the run in place; with no pending
run it falls through to `_diffs.erase(updates, iter)` where
`updates == _diffs.end()` — an invalid range, modelled as `none`. -/
def mergeUpdatesGo : List Char → List Char → Bool → List Diff → List Diff →
    Option (List Diff)
  | _, _, _, done, [] => some done.reverse
  | mi, md, updates, done, d :: rest =>
    match d.operation with
    | Operation.INSERT => mergeUpdatesGo (mi ++ d.data) md true (d :: done) rest
    | Operation.DELETE => mergeUpdatesGo mi (md ++ d.data) true (d :: done) rest
    | Operation.EQUAL =>
        if updates then mergeUpdatesGo mi md updates (d :: done) rest
        else none

/-- Method `Patch::mergeUpdates` run on a diff list. -/
def mergeUpdates (l : List Diff) : Option (List Diff) :=
  mergeUpdatesGo [] [] false [] l

/-- The scan of `Patch::mergeEquals` (`patch.h:359-408`): `run` is the
current range of consecutive EQUAL operations (`begin`/`count`), and a
run of two or more is replaced by one EQUAL whose buffer concatenates
the run's buffers (the `Buffer(size, begin, end)` constructor).  `acc`
holds the already-emitted output in reverse. -/
def mergeEqualsGo : List Diff → List Diff → List Diff → List Diff
  | acc, run, [] =>
      if run.length > 1
      then acc.reverse ++ [⟨Operation.EQUAL, (run.map Diff.data).flatten⟩]
      else acc.reverse ++ run
  | acc, run, d :: rest =>
      if d.operation = Operation.EQUAL then mergeEqualsGo acc (run ++ [d]) rest
      else if run.length > 1 then
        mergeEqualsGo (d :: ⟨Operation.EQUAL, (run.map Diff.data).flatten⟩ :: acc) [] rest
      else
        mergeEqualsGo (d :: (run.reverse ++ acc)) [] rest

/-- Method `Patch::mergeEquals` run on a diff list. -/
def mergeEquals (l : List Diff) : List Diff :=
  mergeEqualsGo [] [] l

/-- The loop of `Patch::shift` (`patch.h:415-473`).  `done` holds (in
reverse) the elements strictly before the `prev` iterator; the head
three elements of the fourth argument are `prev`, `current`, `next`.
The three guards at lines 432-437 execute `continue`, which jumps back
to the loop condition *without* running the iterator advancement at
line 468, so a guard failure repeats the identical state; the fuel
parameter makes this a `none` result.  In the second firing branch,
when `erase(next)` yields `end()` the closing `++next` advances the
end iterator — undefined behaviour, also `none`. -/
def shiftGo : Nat → Nat → List Diff → List Diff → Option (Bool × List Diff)
  | _, changes, done, [] => some (decide (0 < changes), done.reverse)
  | _, changes, done, [a] => some (decide (0 < changes), done.reverse ++ [a])
  | _, changes, done, [a, b] => some (decide (0 < changes), done.reverse ++ [a, b])
  | 0, _, _, _ :: _ :: _ :: _ => none
  | Nat.succ fuel, changes, done, p :: c :: n :: rest =>
    if n.operation ≠ Operation.EQUAL then
      shiftGo fuel changes done (p :: c :: n :: rest)
    else if c.operation = Operation.EQUAL then
      shiftGo fuel changes done (p :: c :: n :: rest)
    else if p.operation ≠ Operation.EQUAL then
      shiftGo fuel changes done (p :: c :: n :: rest)
    else if p.data.length ≤ c.data.length ∧
        c.data.drop (c.data.length - p.data.length) = p.data then
      -- patch.h:440-451: shift left over prev, erase prev
      let c' : Diff := ⟨c.operation, p.data ++ c.data.take (c.data.length - p.data.length)⟩
      let n' : Diff := ⟨n.operation, p.data ++ n.data⟩
      shiftGo fuel (changes + 1) done (c' :: n' :: rest)
    else if n.data.length ≤ c.data.length ∧ c.data.take n.data.length = n.data then
      -- patch.h:453-464: shift right over next, erase next
      let p' : Diff := ⟨p.operation, p.data ++ n.data⟩
      let c' : Diff := ⟨c.operation, c.data.drop n.data.length ++ n.data⟩
      match rest with
      | [] => none   -- erase(next) returned end(); `++next` walks past it
      | _ => shiftGo fuel (changes + 1) (p' :: done) (c' :: rest)
    else
      shiftGo fuel changes (p :: done) (c :: n :: rest)

/-- Method `Patch::shift` on a diff list.  The iterator initialisation at
`patch.h:421-423` applies `std::next` twice starting from `begin()`:
on an empty list the circular sentinel makes both results `end()` and
the loop body never runs; on a one-element list the iterators walk
past `end()`, after which the scan either revisits the same node
forever or dereferences the sentinel — modelled as `none`. -/
def shiftRun (fuel : Nat) (l : List Diff) : Option (Bool × List Diff) :=
  match l with
  | [] => some (false, [])
  | [_] => none
  | _ => shiftGo fuel 0 [] l

/-- Method `Patch::optimize` (`patch.h:258-270`): repeat `mergeUpdates`;
`mergeEquals` while `shift()` reports a change. -/
def optimizeGo : Nat → List Diff → Option (List Diff)
  | 0, _ => none
  | Nat.succ fuel, l =>
    match mergeUpdates l with
    | none => none
    | some l1 =>
      let l2 := mergeEquals l1
      match shiftRun fuel l2 with
      | none => none
      | some (changed, l3) => if changed then optimizeGo fuel l3 else some l3

/-- The private `Patch` constructor (`patch.h:56-88`): equal inputs
yield `[]` (both empty) or a single EQUAL and skip the optimizer;
otherwise assemble affixes + `compute` and run `optimize()`. -/
def patchGo : Nat → Bool → Bool → Buffer → Buffer → Option (List Diff)
  | 0, _, _, _, _ => none
  | Nat.succ fuel, dl, cl, input1, input2 =>
    if input1 = input2 then
      some (if input1.length = 0 then [] else [⟨Operation.EQUAL, input1⟩])
    else
      match patchAssemble (patchGo fuel dl cl) dl cl input1 input2 with
      | none => none
      | some l => optimizeGo fuel l

/-- The public `Patch` constructor (`patch.h:103-104`): it derives the
deadline from `limits.deadline()` (see `Patch.deadlineOf`) and runs the
private constructor. -/
def patch (fuel : Nat) (l : Limits) (now : Nat) (cl : Bool)
    (t1 t2 : Buffer) : Option (List Diff) :=
  patchGo fuel (Patch.deadlineOf l now).isSet cl t1 t2

/-- Concatenation of the spans of all diffs whose operation is not
INSERT: by the spec's invariant I2 this should reconstruct text1. -/
def reconstruct1 (l : List Diff) : Buffer :=
  ((l.filter (fun d => d.operation ≠ Operation.INSERT)).map Diff.data).flatten

/-- Concatenation of the spans of all diffs whose operation is not
DELETE: by the spec's invariant I1 this should reconstruct text2. -/
def reconstruct2 (l : List Diff) : Buffer :=
  ((l.filter (fun d => d.operation ≠ Operation.DELETE)).map Diff.data).flatten

/-- Whether `Patch::compute` reaches the call of `halfmatch`
(`patch.h:125-132`): both texts non-empty, no overlap short-circuit,
and the deadline object truthy (`deadline && ...`). -/
def computeCallsHalfmatch (dl : Bool) (t1 t2 : Buffer) : Bool :=
  decide (t1.length ≠ 0) && decide (t2.length ≠ 0) &&
    (overlapStep t1 t2).isNone && dl

/-- Whether the half-match heuristic is actually attempted (the
`HalfMatch` object constructed): `compute` reaches `halfmatch` and the
guard at `patch.h:157` passes. -/
def halfmatchAttempted (dl : Bool) (t1 t2 : Buffer) : Bool :=
  let longtext := if t1.length > t2.length then t1 else t2
  let shorttext := if t1.length > t2.length then t2 else t1
  computeCallsHalfmatch dl t1 t2 &&
    !(decide (longtext.length < 4) || decide (shorttext.length * 2 < longtext.length))

/-!
Helper lemmas.  These are shared between the claim theorems below.
-/

/-- Generic preservation of a predicate by a left fold. -/
theorem foldl_preserve {α β : Type _} (g : α → β → α) (P : α → Prop)
    (hg : ∀ a b, P a → P (g a b)) :
    ∀ (l : List β) (a : α), P a → P (List.foldl g a l) := by
  intro l
  induction l with
  | nil => intro a ha; exact ha
  | cons b l ih => intro a ha; exact ih (g a b) (hg a b ha)

/-- The constructor loop of `CommonHalf` only ever writes `_substr`:
the members `_prefix` and `_suffix` stay 0 and the text references are
the constructor arguments. -/
theorem commonHalf_state (l s : Buffer) (i : Nat) :
    (commonHalf l s i).pre = 0 ∧ (commonHalf l s i).suf = 0 ∧
      (commonHalf l s i).longtext = l := by
  simp only [commonHalf]
  refine foldl_preserve _
    (fun st : CommonHalfState => st.pre = 0 ∧ st.suf = 0 ∧ st.longtext = l)
    ?_ _ _ ⟨rfl, rfl, rfl⟩
  intro a b hab
  dsimp only
  split
  · exact hab
  · exact hab

/-- Because `_prefix`/`_suffix` are never written, no `CommonHalf` on a
long text of at least one character is ever valid, hence `halfmatch`
(`patch.h:150-191`) always returns `false`: either its length guard
fails, or the `HalfMatch` winner is null. -/
theorem halfmatchStep_eq (recurse : Buffer → Buffer → Option (List Diff))
    (t1 t2 : Buffer) : halfmatchStep recurse t1 t2 = some none := by
  unfold halfmatchStep
  by_cases hg : (if t1.length > t2.length then t1 else t2).length < 4 ∨
      (if t1.length > t2.length then t2 else t1).length * 2 <
        (if t1.length > t2.length then t1 else t2).length
  · simp only [hg, if_true]
  · simp only [hg, if_false]
    have h4 : 4 ≤ (if t1.length > t2.length then t1 else t2).length := by
      rcases not_or.mp hg with ⟨h, _⟩
      omega
    have hv : ∀ j, (commonHalf (if t1.length > t2.length then t1 else t2)
        (if t1.length > t2.length then t2 else t1) j).valid = false := by
      intro j
      obtain ⟨hp, hs, hl⟩ := commonHalf_state
        (if t1.length > t2.length then t1 else t2)
        (if t1.length > t2.length then t2 else t1) j
      unfold CommonHalfState.valid CommonHalfState.characters
      rw [hp, hs, hl]
      simp only [decide_eq_false_iff_not, not_le]
      omega
    simp only [chooseWinner, hv, Bool.false_and, Bool.false_eq_true, if_false]

/-- Slicing from position 0 is the identity. -/
theorem part_zero (b : Buffer) : Buffer.part b 0 = b := by
  cases b with
  | nil => rfl
  | cons x xs => simp [Buffer.part]

/-- A zero-size slice is empty. -/
theorem part2_size_zero (b : Buffer) (start : Nat) :
    Buffer.part2 b start 0 = [] := by
  simp [Buffer.part2]

/-- A slice at position 0 with positive size of a non-empty buffer is
non-empty. -/
theorem part2_zero_pos_ne_nil (b : Buffer) (size : Nat)
    (hb : b ≠ []) (hs : 0 < size) : Buffer.part2 b 0 size ≠ [] := by
  cases b with
  | nil => exact absurd rfl hb
  | cons x xs =>
    unfold Buffer.part2
    rw [if_neg (by simp; omega)]
    have : 0 < min ((x :: xs).length - 0) size := by simp; omega
    cases hm : min ((x :: xs).length - 0) size with
    | zero => omega
    | succ k => simp [hm]

/-- The common suffix length with an empty first text is 0. -/
theorem commonSuffixLen_nil_left (y : Buffer) : commonSuffixLen [] y = 0 := by
  simp [commonSuffixLen, commonPrefixLen]

/-- The common suffix length with an empty second text is 0. -/
theorem commonSuffixLen_nil_right (x : Buffer) : commonSuffixLen x [] = 0 := by
  unfold commonSuffixLen commonPrefixLen
  cases hx : x.reverse <;> simp

/-- Once the `updates` iterator is set (a non-EQUAL element has been
seen), `mergeUpdates` never changes the list again: the EQUAL case
just breaks out of the switch. -/
theorem mergeUpdatesGo_true (rest : List Diff) :
    ∀ (mi md : List Char) (done : List Diff),
      mergeUpdatesGo mi md true done rest = some (done.reverse ++ rest) := by
  induction rest with
  | nil => intro mi md done; simp [mergeUpdatesGo]
  | cons d rest ih =>
    intro mi md done
    unfold mergeUpdatesGo
    cases hop : d.operation <;> simp [hop, ih]

/-- A diff list starting with an EQUAL makes `mergeUpdates` execute
`_diffs.erase(updates, iter)` with `updates == end()`: no result. -/
theorem mergeUpdates_cons_eq (d : Diff) (l : List Diff)
    (h : d.operation = Operation.EQUAL) : mergeUpdates (d :: l) = none := by
  unfold mergeUpdates mergeUpdatesGo
  rw [h]
  rfl

/-- A diff list starting with a non-EQUAL comes back from
`mergeUpdates` unchanged: nothing is ever merged. -/
theorem mergeUpdates_cons_ne (d : Diff) (l : List Diff)
    (h : d.operation ≠ Operation.EQUAL) : mergeUpdates (d :: l) = some (d :: l) := by
  unfold mergeUpdates mergeUpdatesGo
  cases hop : d.operation with
  | EQUAL => exact absurd hop h
  | INSERT => simp [mergeUpdatesGo_true]
  | DELETE => simp [mergeUpdatesGo_true]

/-- A single non-EQUAL diff passes through `mergeEquals` unchanged. -/
theorem mergeEquals_single_ne (d : Diff) (h : d.operation ≠ Operation.EQUAL) :
    mergeEquals [d] = [d] := by
  unfold mergeEquals mergeEqualsGo
  rw [if_neg h]
  simp [mergeEqualsGo]

/-- A list of two non-EQUAL diffs followed by one EQUAL diff passes
through `mergeEquals` unchanged (no EQUAL run of length two exists). -/
theorem mergeEquals_DIE (d1 d2 d3 : Diff)
    (h1 : d1.operation ≠ Operation.EQUAL) (h2 : d2.operation ≠ Operation.EQUAL)
    (h3 : d3.operation = Operation.EQUAL) :
    mergeEquals [d1, d2, d3] = [d1, d2, d3] := by
  unfold mergeEquals mergeEqualsGo
  rw [if_neg h1]
  simp only [List.length_nil, List.reverse_nil, List.nil_append, gt_iff_lt,
    Nat.lt_irrefl, if_false]
  unfold mergeEqualsGo
  rw [if_neg h2]
  simp only [List.length_nil, List.reverse_nil, List.nil_append, gt_iff_lt,
    Nat.lt_irrefl, if_false]
  unfold mergeEqualsGo
  rw [if_pos h3]
  simp [mergeEqualsGo, h2, h3]

/-- An alternating list non-EQUAL, EQUAL, non-EQUAL passes through
`mergeEquals` unchanged. -/
theorem mergeEquals_oEo (d1 d2 d3 : Diff)
    (h1 : d1.operation ≠ Operation.EQUAL) (h2 : d2.operation = Operation.EQUAL)
    (h3 : d3.operation ≠ Operation.EQUAL) :
    mergeEquals [d1, d2, d3] = [d1, d2, d3] := by
  unfold mergeEquals mergeEqualsGo
  rw [if_neg h1]
  simp only [List.length_nil, List.reverse_nil, List.nil_append, gt_iff_lt,
    Nat.lt_irrefl, if_false]
  unfold mergeEqualsGo
  rw [if_pos h2]
  simp only [List.nil_append]
  unfold mergeEqualsGo
  rw [if_neg h3]
  simp [mergeEqualsGo, h2, h3]

/-- An alternating four-element list non-EQUAL, EQUAL, non-EQUAL,
EQUAL passes through `mergeEquals` unchanged. -/
theorem mergeEquals_oEoE (d1 d2 d3 d4 : Diff)
    (h1 : d1.operation ≠ Operation.EQUAL) (h2 : d2.operation = Operation.EQUAL)
    (h3 : d3.operation ≠ Operation.EQUAL) (h4 : d4.operation = Operation.EQUAL) :
    mergeEquals [d1, d2, d3, d4] = [d1, d2, d3, d4] := by
  unfold mergeEquals mergeEqualsGo
  rw [if_neg h1]
  simp only [List.length_nil, List.reverse_nil, List.nil_append, gt_iff_lt,
    Nat.lt_irrefl, if_false]
  unfold mergeEqualsGo
  rw [if_pos h2]
  simp only [List.nil_append]
  unfold mergeEqualsGo
  rw [if_neg h3]
  simp only [List.length_cons, List.length_nil, gt_iff_lt]
  rw [if_neg (by omega)]
  unfold mergeEqualsGo
  rw [if_pos h4]
  simp [mergeEqualsGo, h2, h3, h4]

/-- Whenever one of the three guards of `shift` fails on the triple at
the front, the `continue` repeats the identical state: the loop never
produces a result, whatever the fuel. -/
theorem shiftGo_stuck (a b c : Diff) (r : List Diff)
    (h : c.operation ≠ Operation.EQUAL ∨ b.operation = Operation.EQUAL ∨
      a.operation ≠ Operation.EQUAL) :
    ∀ (fuel changes : Nat) (done : List Diff),
      shiftGo fuel changes done (a :: b :: c :: r) = none := by
  intro fuel
  induction fuel with
  | zero => intro changes done; rfl
  | succ fuel ih =>
    intro changes done
    unfold shiftGo
    by_cases h1 : c.operation ≠ Operation.EQUAL
    · rw [if_pos h1]; exact ih changes done
    · rw [if_neg h1]
      by_cases h2 : b.operation = Operation.EQUAL
      · rw [if_pos h2]; exact ih changes done
      · rw [if_neg h2]
        have h3 : a.operation ≠ Operation.EQUAL := by tauto
        rw [if_pos h3]; exact ih changes done

/-- Lists of length at least three whose head three elements leave the
guards of `shift` unsatisfied make `shiftRun` spin forever. -/
theorem shiftRun_stuck (a b c : Diff) (r : List Diff)
    (h : c.operation ≠ Operation.EQUAL ∨ b.operation = Operation.EQUAL ∨
      a.operation ≠ Operation.EQUAL) (fuel : Nat) :
    shiftRun fuel (a :: b :: c :: r) = none := by
  unfold shiftRun
  exact shiftGo_stuck a b c r h fuel 0 []

/-- The optimizer never finishes on a list that starts with an EQUAL
diff: `mergeUpdates` performs the invalid erase immediately. -/
theorem optimizeGo_headE (buf : Buffer) (rest : List Diff) :
    ∀ fuel, optimizeGo fuel (⟨Operation.EQUAL, buf⟩ :: rest) = none := by
  intro fuel
  cases fuel with
  | zero => rfl
  | succ fuel =>
    unfold optimizeGo
    rw [mergeUpdates_cons_eq _ _ rfl]

/-- The optimizer never finishes on a one-element non-EQUAL list: the
iterator initialisation of `shift` walks past `end()`. -/
theorem optimizeGo_single_ne (d : Diff) (h : d.operation ≠ Operation.EQUAL) :
    ∀ fuel, optimizeGo fuel [d] = none := by
  intro fuel
  cases fuel with
  | zero => rfl
  | succ fuel =>
    unfold optimizeGo
    rw [mergeUpdates_cons_ne _ _ h]
    simp only [mergeEquals_single_ne _ h]
    rfl

/-- The optimizer never finishes on a three-element list of two
non-EQUAL updates followed by an EQUAL: the `shift` guard on `prev`
fails forever. -/
theorem optimizeGo_DIE (d1 d2 d3 : Diff)
    (h1 : d1.operation ≠ Operation.EQUAL) (h2 : d2.operation ≠ Operation.EQUAL)
    (h3 : d3.operation = Operation.EQUAL) :
    ∀ fuel, optimizeGo fuel [d1, d2, d3] = none := by
  intro fuel
  cases fuel with
  | zero => rfl
  | succ fuel =>
    unfold optimizeGo
    rw [mergeUpdates_cons_ne _ _ h1]
    simp only [mergeEquals_DIE _ _ _ h1 h2 h3]
    rw [shiftRun_stuck _ _ _ _ (Or.inr (Or.inr h1)) fuel]

/-- The optimizer never finishes on the overlap shape
non-EQUAL, EQUAL, non-EQUAL: the first `shift` guard fails forever. -/
theorem optimizeGo_oEo (d1 d2 d3 : Diff)
    (h1 : d1.operation ≠ Operation.EQUAL) (h2 : d2.operation = Operation.EQUAL)
    (h3 : d3.operation ≠ Operation.EQUAL) :
    ∀ fuel, optimizeGo fuel [d1, d2, d3] = none := by
  intro fuel
  cases fuel with
  | zero => rfl
  | succ fuel =>
    unfold optimizeGo
    rw [mergeUpdates_cons_ne _ _ h1]
    simp only [mergeEquals_oEo _ _ _ h1 h2 h3]
    rw [shiftRun_stuck _ _ _ _ (Or.inl h3) fuel]

/-- The optimizer never finishes on the shape non-EQUAL, EQUAL,
non-EQUAL, EQUAL either. -/
theorem optimizeGo_oEoE (d1 d2 d3 d4 : Diff)
    (h1 : d1.operation ≠ Operation.EQUAL) (h2 : d2.operation = Operation.EQUAL)
    (h3 : d3.operation ≠ Operation.EQUAL) (h4 : d4.operation = Operation.EQUAL) :
    ∀ fuel, optimizeGo fuel [d1, d2, d3, d4] = none := by
  intro fuel
  cases fuel with
  | zero => rfl
  | succ fuel =>
    unfold optimizeGo
    rw [mergeUpdates_cons_ne _ _ h1]
    simp only [mergeEquals_oEoE _ _ _ _ h1 h2 h3 h4]
    rw [shiftRun_stuck _ _ _ _ (Or.inl h3) fuel]

/-- Constructor disequality used pointwise below. -/
theorem del_ne_eq : Operation.DELETE ≠ Operation.EQUAL := by decide

/-- Constructor disequality used pointwise below. -/
theorem ins_ne_eq : Operation.INSERT ≠ Operation.EQUAL := by decide

/-- Case analysis of `Patch::overlap`: either no match, or the direct
DELETE/INSERT fallback for single-character texts, or the three-diff
overlap emission whose outer operation is DELETE or INSERT. -/
theorem overlap_cases (t1 t2 : Buffer) :
    overlapStep t1 t2 = none ∨
    overlapStep t1 t2 = some [⟨Operation.DELETE, t1⟩, ⟨Operation.INSERT, t2⟩] ∨
    ∃ o p m s, (o = Operation.DELETE ∨ o = Operation.INSERT) ∧
      overlapStep t1 t2 = some [⟨o, p⟩, ⟨Operation.EQUAL, m⟩, ⟨o, s⟩] := by
  rcases hf : Buffer.find (if t1.length > t2.length then t1 else t2)
      (if t1.length > t2.length then t2 else t1) with _ | skip
  · by_cases hl : t1.length = 1 ∨ t2.length = 1
    · right; left
      simp only [overlapStep, hf, if_pos hl]
    · left
      simp only [overlapStep, hf, if_neg hl]
  · right; right
    refine ⟨if t1.length > t2.length then Operation.DELETE else Operation.INSERT,
      Buffer.part2 (if t1.length > t2.length then t1 else t2) 0 skip,
      (if t1.length > t2.length then t2 else t1),
      Buffer.part (if t1.length > t2.length then t1 else t2) skip, ?_, ?_⟩
    · by_cases h : t1.length > t2.length
      · left; rw [if_pos h]
      · right; rw [if_neg h]
    · simp only [overlapStep, hf]

/-- Case analysis of `Patch::compute`.  Since `halfmatch` always
reports failure and `linemode`/`bisect` are stubs, the possible
results are: a single INSERT (first text empty), a single DELETE
(second text empty), the three-diff overlap emission, the
DELETE/INSERT fallback, or nothing at all. -/
theorem compute_cases (recurse : Buffer → Buffer → Option (List Diff))
    (dl cl : Bool) (a b : Buffer) :
    (a.length = 0 ∧ compute recurse dl cl a b = some [⟨Operation.INSERT, b⟩]) ∨
    (b.length = 0 ∧ compute recurse dl cl a b = some [⟨Operation.DELETE, a⟩]) ∨
    (∃ o p m s, (o = Operation.DELETE ∨ o = Operation.INSERT) ∧
      compute recurse dl cl a b = some [⟨o, p⟩, ⟨Operation.EQUAL, m⟩, ⟨o, s⟩]) ∨
    compute recurse dl cl a b = some [⟨Operation.DELETE, a⟩, ⟨Operation.INSERT, b⟩] ∨
    compute recurse dl cl a b = some [] := by
  by_cases h1 : a.length = 0
  · left
    exact ⟨h1, by unfold compute; rw [if_pos h1]⟩
  · by_cases h2 : b.length = 0
    · right; left
      refine ⟨h2, ?_⟩
      unfold compute
      rw [if_neg h1, if_pos h2]
    · rcases overlap_cases a b with hov | hov | ⟨o, p, m, s, ho, hov⟩
      · right; right; right; right
        unfold compute
        rw [if_neg h1, if_neg h2, hov]
        cases dl <;> simp [halfmatchStep_eq]
      · right; right; right; left
        unfold compute
        rw [if_neg h1, if_neg h2, hov]
      · right; right; left
        refine ⟨o, p, m, s, ho, ?_⟩
        unfold compute
        rw [if_neg h1, if_neg h2, hov]

/-- Master lemma: for any two texts with different contents, the
`Patch` constructor never completes, whatever the deadline flag, the
`checklines` flag and the available fuel.  Either the assembled diff
list begins with an EQUAL (a common prefix exists) and `mergeUpdates`
performs the invalid `erase(end, iter)`, or `shift` revisits a
guard-failing state forever, or the one-element list makes the `shift`
iterator initialisation walk past `end()`. -/
theorem patchGo_distinct_none (dl cl : Bool) (t1 t2 : Buffer) (hne : t1 ≠ t2) :
    ∀ fuel, patchGo fuel dl cl t1 t2 = none := by
  intro fuel
  cases fuel with
  | zero => rfl
  | succ fuel =>
    unfold patchGo
    rw [if_neg hne]
    simp only [patchAssemble]
    set pfx := commonPrefixLen t1 t2 with hpfx
    set sfx := commonSuffixLen (Buffer.part t1 pfx) (Buffer.part t2 pfx) with hsfx
    by_cases hp : 0 < pfx
    · rcases hc : compute (patchGo fuel dl cl) dl cl
          (Buffer.part2 t1 pfx (pfx + sfx)) (Buffer.part2 t2 pfx (pfx + sfx))
        with _ | mid
      · simp only [hc]
      · simp only [hc, if_pos hp, List.cons_append, List.nil_append]
        exact optimizeGo_headE _ _ fuel
    · have hp0 : pfx = 0 := by omega
      by_cases hs : 0 < sfx
      · have ht1 : t1 ≠ [] := by
          intro h
          rw [hpfx, h] at hp0
          rw [h] at hsfx
          simp only [Buffer.part, List.length_nil, Nat.zero_le, if_pos,
            List.drop_nil] at hsfx
          rw [commonSuffixLen_nil_left] at hsfx
          omega
        have ht2 : t2 ≠ [] := by
          intro h
          rw [h] at hsfx
          have : Buffer.part ([] : Buffer) pfx = [] := by
            simp [Buffer.part]
          rw [this, commonSuffixLen_nil_right] at hsfx
          omega
        have hA : Buffer.part2 t1 pfx (pfx + sfx) ≠ [] := by
          rw [hp0]
          simpa using part2_zero_pos_ne_nil t1 sfx ht1 hs
        have hB : Buffer.part2 t2 pfx (pfx + sfx) ≠ [] := by
          rw [hp0]
          simpa using part2_zero_pos_ne_nil t2 sfx ht2 hs
        rcases compute_cases (patchGo fuel dl cl) dl cl
            (Buffer.part2 t1 pfx (pfx + sfx)) (Buffer.part2 t2 pfx (pfx + sfx))
          with ⟨haz, _⟩ | ⟨hbz, _⟩ | ⟨o, p, m, s, ho, hc⟩ | hc | hc
        · exact absurd (List.length_eq_zero.mp haz) hA
        · exact absurd (List.length_eq_zero.mp hbz) hB
        · have ho' : o ≠ Operation.EQUAL := by
            rcases ho with rfl | rfl <;> decide
          simp only [hc, if_neg hp, if_pos hs, List.cons_append, List.nil_append,
            List.append_nil]
          exact optimizeGo_oEoE _ _ _ _ ho' rfl ho' rfl fuel
        · simp only [hc, if_neg hp, if_pos hs, List.cons_append, List.nil_append,
            List.append_nil]
          exact optimizeGo_DIE _ _ _ del_ne_eq ins_ne_eq rfl fuel
        · simp only [hc, if_neg hp, if_pos hs, List.cons_append, List.nil_append,
            List.append_nil]
          exact optimizeGo_headE _ _ fuel
      · have hs0 : sfx = 0 := by omega
        have hA : Buffer.part2 t1 pfx (pfx + sfx) = [] := by
          rw [hp0, hs0]
          exact part2_size_zero t1 0
        have hB : Buffer.part2 t2 pfx (pfx + sfx) = [] := by
          rw [hp0, hs0]
          exact part2_size_zero t2 0
        rw [hA, hB]
        have hcomp : compute (patchGo fuel dl cl) dl cl ([] : Buffer) ([] : Buffer) =
            some [⟨Operation.INSERT, ([] : Buffer)⟩] := by
          unfold compute
          rfl
        simp only [hcomp, if_neg hp, if_neg hs, List.nil_append, List.append_nil]
        exact optimizeGo_single_ne _ (by decide) fuel

/-- Helper for the slicing claim: taking `min (length) n` elements is
the same as taking `n` elements. -/
theorem take_min_length {α : Type _} :
    ∀ (l : List α) (n : Nat), List.take (min l.length n) l = List.take n l := by
  intro l
  induction l with
  | nil => intro n; simp
  | cons a t ih =>
    intro n
    cases n with
    | zero => simp
    | succ n =>
      simp only [List.length_cons, Nat.succ_min_succ, List.take_succ_cons, ih]

/-- Claim C1 (status: code bug).  The claim says every
`Patch(limits, text1, text2, checklines)` satisfies the reconstruction
invariants.  In fact for the inputs `text1 = "abc"`, `text2 = "b"`
(default limits, `checklines = true`) the constructor never returns at
all, whatever fuel it is given: the constructor passes
`common = prefix + suffix` as the *size* of the middle substring
(`patch.h:80`), so `compute` sees two empty texts and assembles the
single diff `INSERT("")` — whose spans reconstruct neither `"abc"`
nor `"b"` — and the `shift` pass of the optimizer then walks its
iterators past `end()` of the one-element list and revisits the same
node forever (`patch.h:421-432`). -/
theorem claim1_reconstruction_never_established :
    (∀ fuel now, patch fuel {} now true ['a', 'b', 'c'] ['b'] = none) ∧
    patchAssemble (patchGo 5 true true) true true ['a', 'b', 'c'] ['b'] =
      some [⟨Operation.INSERT, []⟩] ∧
    reconstruct1 [⟨Operation.INSERT, []⟩] ≠ ['a', 'b', 'c'] ∧
    reconstruct2 [⟨Operation.INSERT, []⟩] ≠ ['b'] := by
  refine ⟨?_, by decide, by decide, by decide⟩
  intro fuel now
  exact patchGo_distinct_none _ _ _ _ (by decide) fuel

/-- Claim C2 (status: code bug).  The claim says the overlap
short-circuit emits `[edit-op(prefix), EQUAL(middle), edit-op(suffix)]`
with the suffix starting at `k` plus the shorter text's length.  For
`text1 = "xaby"`, `text2 = "ab"` (overlap at `k = 1`) the code emits
`DELETE("aby")` as the third diff — `CommonOverlap::suffix()` returns
`buffer(_skip)` (`commonoverlap.h:86`), the longer text from the hit
offset onward — instead of `DELETE("y")`, so the overlap region
appears twice and the non-INSERT spans concatenate to `"xababy"`. -/
theorem claim2_overlap_suffix_includes_middle :
    overlapStep ['x', 'a', 'b', 'y'] ['a', 'b'] =
      some [⟨Operation.DELETE, ['x']⟩, ⟨Operation.EQUAL, ['a', 'b']⟩,
        ⟨Operation.DELETE, ['a', 'b', 'y']⟩] ∧
    (['a', 'b', 'y'] : Buffer) ≠ ['y'] ∧
    reconstruct1 [⟨Operation.DELETE, ['x']⟩, ⟨Operation.EQUAL, ['a', 'b']⟩,
      ⟨Operation.DELETE, ['a', 'b', 'y']⟩] ≠ ['x', 'a', 'b', 'y'] := by
  decide

/-- Claim C3 (status: code bug).  The claim says `CommonHalf` records
the occurrence with the largest combined prefix-plus-suffix match and
is valid iff twice that matched length reaches the long text's
length.  In the code the constructor computes the prefix/suffix
lengths into local objects and never writes the members
`_prefix`/`_suffix` (`commonhalf.h:85-92`), so `characters()` is
always 0 and `valid()` fails for every non-empty long text.  Witness
input: long text `"abcd"`, short text `"bc"`, seed index 1 — the
occurrence at 0 matches 2 characters and `2 * 2 ≥ 4`, yet the code
records a matched length of 0 and reports invalid. -/
theorem claim3_commonhalf_discards_match_length :
    (commonHalf ['a', 'b', 'c', 'd'] ['b', 'c'] 1).substr = 0 ∧
    (commonHalf ['a', 'b', 'c', 'd'] ['b', 'c'] 1).characters = 0 ∧
    (commonHalf ['a', 'b', 'c', 'd'] ['b', 'c'] 1).valid = false ∧
    (commonPrefixLen (Buffer.part ['a', 'b', 'c', 'd'] 1) (Buffer.part ['b', 'c'] 0) +
        commonSuffixLen (Buffer.part2 ['a', 'b', 'c', 'd'] 0 1)
          (Buffer.part2 ['b', 'c'] 0 0)) * 2 ≥
      (['a', 'b', 'c', 'd'] : Buffer).length := by
  decide

/-- Claim C4 (status: code bug).  The claim says `mergeUpdates`
replaces each run of non-EQUAL operations, at its terminating EQUAL,
by common prefix / merged DELETE / merged INSERT / common suffix.  The
guard at `patch.h:305` is inverted (`if (updates != _diffs.end()) break;`):
on reaching an EQUAL with a pending run the code breaks out of the
switch and leaves the run in place — the list
`[INSERT "b", DELETE "a", EQUAL "c"]` comes back unchanged instead of
becoming `[DELETE "a", INSERT "b", EQUAL "c"]` — and on reaching an
EQUAL with no pending run it executes `erase(updates, iter)` with
`updates == end()`, an invalid range (no defined result). -/
theorem claim4_mergeupdates_leaves_runs :
    mergeUpdates [⟨Operation.INSERT, ['b']⟩, ⟨Operation.DELETE, ['a']⟩,
        ⟨Operation.EQUAL, ['c']⟩] =
      some [⟨Operation.INSERT, ['b']⟩, ⟨Operation.DELETE, ['a']⟩,
        ⟨Operation.EQUAL, ['c']⟩] ∧
    ([⟨Operation.INSERT, ['b']⟩, ⟨Operation.DELETE, ['a']⟩, ⟨Operation.EQUAL, ['c']⟩] :
        List Diff) ≠
      [⟨Operation.DELETE, ['a']⟩, ⟨Operation.INSERT, ['b']⟩, ⟨Operation.EQUAL, ['c']⟩] ∧
    mergeUpdates [⟨Operation.EQUAL, ['c']⟩, ⟨Operation.DELETE, ['a']⟩] = none := by
  decide

/-- Claim C5 (status: code bug).  The claim says every optimizer pass
terminates, `shift` advancing through the list in overlapping triples.
The `continue` statements at `patch.h:432-437` jump back to the loop
condition without executing the iterator advancement at `patch.h:468`,
so the first scanned triple that fails a guard is rescanned forever:
on `[EQUAL "a", DELETE "b", INSERT "c", EQUAL "d"]` the pass never
finishes, for any amount of fuel. -/
theorem claim5_shift_spins_on_failed_guard :
    ∀ fuel, shiftRun fuel [⟨Operation.EQUAL, ['a']⟩, ⟨Operation.DELETE, ['b']⟩,
      ⟨Operation.INSERT, ['c']⟩, ⟨Operation.EQUAL, ['d']⟩] = none := by
  intro fuel
  exact shiftRun_stuck _ _ _ _ (Or.inl ins_ne_eq) fuel

/-- Claim C6 (status: code bug).  The claim says every Patch returned
to the caller has no two adjacent EQUAL, INSERT or DELETE diffs.  The
optimizer never establishes this: for any two distinct inputs the
constructor never returns (first conjunct, at `text1 = "ba"`,
`text2 = "a"`), and the passes that should merge adjacent runs do not —
`optimize` maps `[DELETE "x", DELETE "y"]` to itself, leaving the two
adjacent DELETE operations in place (second conjunct). -/
theorem claim6_adjacency_not_enforced :
    (∀ fuel now, patch fuel {} now true ['b', 'a'] ['a'] = none) ∧
    optimizeGo 3 [⟨Operation.DELETE, ['x']⟩, ⟨Operation.DELETE, ['y']⟩] =
      some [⟨Operation.DELETE, ['x']⟩, ⟨Operation.DELETE, ['y']⟩] := by
  refine ⟨?_, by decide⟩
  intro fuel now
  exact patchGo_distinct_none _ _ _ _ (by decide) fuel

/-- Claim C7 (status: code bug).  The claim says that with
`Limits.timeout = 0` no deadline exists and the half-match branch is
never attempted.  In the code `Limits::deadline()` returns
`numeric_limits<clock_t>::max()` for `timeout <= 0` (`limits.h:81`)
and the `Patch` constructor passes that clock value to the
`Deadline(time_t seconds)` constructor, so `_max` is huge, the
deadline converts to `true`, and on texts `"abcd"` / `"ef"` (no
overlap, length guards satisfied) the half-match heuristic *is*
attempted. -/
theorem claim7_zero_timeout_still_attempts_halfmatch :
    ∀ now : Nat, (Patch.deadlineOf { timeout := 0 } now).isSet = true ∧
      halfmatchAttempted ((Patch.deadlineOf { timeout := 0 } now).isSet)
        ['a', 'b', 'c', 'd'] ['e', 'f'] = true := by
  intro now
  have hd : (Patch.deadlineOf { timeout := 0 } now).isSet = true := by
    unfold Patch.deadlineOf Deadline.isSet Limits.deadline
    rw [if_pos (le_refl (0 : ℚ))]
    show decide (0 < clockMax) = true
    decide
  refine ⟨hd, ?_⟩
  rw [hd]
  decide

/-- Claim C8 (status: confirmed).  `Patch(limits, T, T)` takes the
equal-inputs branch of the constructor (`patch.h:58-66`): the empty
list when `T` is empty, otherwise exactly one `EQUAL(T)` diff, for
every limits configuration, clock value and `checklines` flag. -/
theorem claim8_identity_diff (fuel : Nat) (lim : Limits) (now : Nat)
    (cl : Bool) (T : Buffer) :
    patch (fuel + 1) lim now cl T T =
      some (if T.length = 0 then [] else [⟨Operation.EQUAL, T⟩]) := by
  unfold patch patchGo
  rw [if_pos rfl]

/-- Claim C9 (status: confirmed).  `Buffer::part` is total and
in-bounds: the one-argument form equals the drop of the first `start`
bytes (empty when `start` is at or past the size), the two-argument
form takes exactly `min(bytes - start, size)` bytes at `start` (empty
when `start` is out of range or `size` is zero), and both slices are
contiguous sub-ranges of the buffer — there is no error outcome. -/
theorem claim9_part_slicing (b : Buffer) (start size : Nat) :
    Buffer.part b start = List.drop start b ∧
    Buffer.part2 b start size = List.take size (List.drop start b) ∧
    (Buffer.part2 b start size).length = min (b.length - start) size ∧
    List.IsSuffix (Buffer.part b start) b ∧
    List.IsInfix (Buffer.part2 b start size) b ∧
    (b.length ≤ start → Buffer.part b start = []) ∧
    (size = 0 → Buffer.part2 b start size = []) := by
  have h1 : Buffer.part b start = List.drop start b := by
    unfold Buffer.part
    split
    · rename_i h
      rw [List.drop_eq_nil_of_le h]
    · rfl
  have h2 : Buffer.part2 b start size = List.take size (List.drop start b) := by
    unfold Buffer.part2
    split
    · rename_i h
      rcases h with h | h
      · rw [List.drop_eq_nil_of_le h, List.take_nil]
      · rw [h, List.take_zero]
    · rw [show b.length - start = (List.drop start b).length from
        (List.length_drop start b).symm]
      exact take_min_length _ _
  refine ⟨h1, h2, ?_, ?_, ?_, ?_, ?_⟩
  · rw [h2, List.length_take, List.length_drop]
    exact Nat.min_comm _ _
  · rw [h1]
    exact List.drop_suffix _ _
  · rw [h2]
    exact ((List.take_prefix _ _).isInfix).trans ((List.drop_suffix _ _).isInfix)
  · intro h
    rw [h1]
    exact List.drop_eq_nil_of_le h
  · intro h
    rw [h]
    exact part2_size_zero b start

/-- Witness for claim C9 at a concrete buffer, start and size. -/
theorem claim9_witness :
    Buffer.part ['a', 'b', 'c'] 1 = List.drop 1 ['a', 'b', 'c'] ∧
    Buffer.part2 ['a', 'b', 'c'] 1 5 = List.take 5 (List.drop 1 ['a', 'b', 'c']) ∧
    (Buffer.part2 ['a', 'b', 'c'] 1 5).length =
      min ((['a', 'b', 'c'] : Buffer).length - 1) 5 ∧
    List.IsSuffix (Buffer.part ['a', 'b', 'c'] 1) ['a', 'b', 'c'] ∧
    List.IsInfix (Buffer.part2 ['a', 'b', 'c'] 1 5) ['a', 'b', 'c'] ∧
    ((['a', 'b', 'c'] : Buffer).length ≤ 1 → Buffer.part ['a', 'b', 'c'] 1 = []) ∧
    (5 = 0 → Buffer.part2 ['a', 'b', 'c'] 1 5 = []) :=
  claim9_part_slicing ['a', 'b', 'c'] 1 5

/-- Claim C10 (status: confirmed).  For any two `CommonHalf` states
that are both valid, the `HalfMatch` constructor picks the
second-quarter result exactly when it matched strictly more characters
than the third-quarter result, and picks the third-quarter result on a
tie (`halfmatch.h:63`). -/
theorem claim10_halfmatch_tiebreak (a b : CommonHalfState)
    (ha : a.valid = true) (hb : b.valid = true) :
    (chooseWinner a b = some HalfMatchChoice.q2 ↔ b.characters < a.characters) ∧
    (a.characters = b.characters → chooseWinner a b = some HalfMatchChoice.q3) := by
  unfold chooseWinner
  rw [ha, hb]
  simp only [Bool.and_self, if_true]
  constructor
  · constructor
    · intro h
      by_cases hgt : b.characters < a.characters
      · exact hgt
      · rw [if_neg hgt] at h
        simp at h
    · intro hgt
      rw [if_pos hgt]
  · intro heq
    rw [if_neg (by omega)]

/-- Witness for claim C10: two equal (hence tied) valid states select
the third-quarter result. -/
theorem claim10_witness :
    CommonHalfState.valid ⟨[], [], 0, 0, 0, 0⟩ = true ∧
    chooseWinner ⟨[], [], 0, 0, 0, 0⟩ ⟨[], [], 0, 0, 0, 0⟩ =
      some HalfMatchChoice.q3 :=
  ⟨by decide,
    (claim10_halfmatch_tiebreak ⟨[], [], 0, 0, 0, 0⟩ ⟨[], [], 0, 0, 0, 0⟩
      (by decide) (by decide)).2 rfl⟩
